import Mathlib

/-!
A shallow embedding of the vibecoding context-aggregation server
(src/models/schemas.py, src/services/context_service.py,
src/services/vector_store.py, src/services/vector_context_service.py,
src/main.py) and proofs about it.

Datetimes are modelled as natural numbers (larger = more recent,
0 = datetime.min, the oldest possible value).  External collaborators
(the four source API clients, the embedding backend, the text splitter
and the date parsers) are modelled as an explicit environment of
functions; a fetch that raises is an `Except.error`.
-/

namespace VC

/-! Python-truthiness helpers. -/

/-- Python `opt or d` for an optional integer (`None` and `0` are falsy). -/
def pyOr (o : Option Nat) (d : Nat) : Nat :=
  match o with
  | some n => if n = 0 then d else n
  | none => d

/-- Python truthiness of an optional string (`None` and `""` are falsy). -/
def strTruthy (o : Option String) : Bool :=
  match o with
  | some s => s ≠ ""
  | none => false

/-- Whether `n` occurs as a contiguous sublist of `l` at its front. -/
def leadsWith (n : List Char) (l : List Char) : Bool :=
  match n, l with
  | [], _ => true
  | _ :: _, [] => false
  | a :: as, b :: bs => a = b && leadsWith as bs

/-- Whether `n` occurs as a contiguous sublist of `l` anywhere
(models Python's `needle in haystack` on strings). -/
def containsSub (n : List Char) (l : List Char) : Bool :=
  match l with
  | [] => leadsWith n []
  | _ :: t => leadsWith n l || containsSub n t

/-- Python `needle in haystack` on strings. -/
def strIn (needle hay : String) : Bool :=
  containsSub needle.toList hay.toList

/-! The data model (src/models/schemas.py). -/

/-- A metadata value (Python metadata dicts are string-keyed with
string / integer / null values in this program). -/
inductive MVal where
  | str : String → MVal
  | num : Nat → MVal
  | null : MVal
deriving DecidableEq

/-- Python truthiness of a metadata value. -/
def mvalTruthy : MVal → Bool
  | .str s => s ≠ ""
  | .num n => n ≠ 0
  | .null => false

/-- An optional string as a metadata value (`None` becomes null). -/
def optSVal : Option String → MVal
  | some s => .str s
  | none => .null

/-- The fields of the `ContextItem` pydantic base model that every
subtype shares: `content`, `metadata` and the optional `timestamp`
(whose pydantic default is the creation time). -/
structure BaseFields where
  content : String
  metadata : List (String × MVal)
  timestamp : Option Nat
deriving DecidableEq

/-- A context item: the `ContextItem` base model or one of its six
subtypes from src/models/schemas.py, as a tagged union.  The `base`
variant carries the `type` and `source` strings explicitly; each
subtype fixes them as constants. -/
inductive CtxItem where
  | base (type_ : String) (source : String) (b : BaseFields)
  | email (b : BaseFields) (subject : String) (sender : String)
      (recipients : List String) (date : Nat) (thread_id : Option String)
  | meeting (b : BaseFields) (title : String) (participants : List String)
      (date : Nat) (duration : Nat) (meeting_id : String)
  | document (b : BaseFields) (title : String) (authors : List String)
      (last_edited : Nat) (page_id : String)
  | opportunity (b : BaseFields) (name : String) (stage : String)
      (amount : Option Int) (close_date : Option Nat)
      (account_name : Option String) (owner_name : Option String)
      (opportunity_id : Option String)
  | account (b : BaseFields) (name : String) (industry : Option String)
      (website : Option String) (account_id : Option String)
  | contact (b : BaseFields) (name : String) (email : Option String)
      (phone : Option String) (title : Option String)
      (account_name : Option String) (contact_id : Option String)
deriving DecidableEq

/-- The shared base fields of an item. -/
def CtxItem.baseOf : CtxItem → BaseFields
  | .base _ _ b => b
  | .email b .. => b
  | .meeting b .. => b
  | .document b .. => b
  | .opportunity b .. => b
  | .account b .. => b
  | .contact b .. => b

/-- The `type` discriminator of an item. -/
def CtxItem.typeOf : CtxItem → String
  | .base t _ _ => t
  | .email .. => "email"
  | .meeting .. => "meeting"
  | .document .. => "document"
  | .opportunity .. => "opportunity"
  | .account .. => "account"
  | .contact .. => "contact"

/-- The `source` field of an item. -/
def CtxItem.sourceOf : CtxItem → String
  | .base _ s _ => s
  | .email .. => "gmail"
  | .meeting .. => "zoom"
  | .document .. => "notion"
  | .opportunity .. => "salesforce"
  | .account .. => "salesforce"
  | .contact .. => "salesforce"

/-- The sort key used by `ContextService.get_context`
(line 65: `x.timestamp if x.timestamp else datetime.min`); a missing
timestamp sorts as the oldest possible value. -/
def sortKey (it : CtxItem) : Nat :=
  (it.baseOf.timestamp).getD 0

/-- The natural id used for deduplication in
`VectorContextService.get_context` (lines 97-103): `thread_id` if the
object has one, else `meeting_id`, else `page_id`, else the empty
string; a `None` `thread_id` is falsy exactly like `""`. -/
def natId : CtxItem → String
  | .email _ _ _ _ _ tid => tid.getD ""
  | .meeting _ _ _ _ _ mid => mid
  | .document _ _ _ _ pid => pid
  | _ => ""

/-- The `time_range` request dict; a field is `none` when the key is
absent, and the dict is Python-falsy when both keys are absent. -/
structure TimeRange where
  days_back : Option Nat
  include_fresh : Option Bool
deriving DecidableEq

/-- The `ContextRequest` pydantic model. -/
structure ContextRequest where
  query : Option String
  time_range : Option TimeRange
  sources : Option (List String)
  limit : Option Nat
  entity_focus : Option (List (String × String))
deriving DecidableEq

/-- The `ContextResponse` pydantic model. -/
structure ContextResponse where
  source : String
  context_items : List CtxItem
  query : Option String
  timestamp : Nat
deriving DecidableEq

/-! Raw source records, as returned by the four integration clients.
Each field models one key of the vendor dict; `none` means the key is
absent (or null). -/

/-- A raw Zoom meeting transcript record. -/
structure ZoomRaw where
  transcript : Option String
  topic : Option String
  start_time : Option String
  duration : Option Nat
  meeting_id : Option String
deriving DecidableEq

/-- A raw Gmail email record. -/
structure GmailRaw where
  body : Option String
  snippet : Option String
  subject : Option String
  fromAddr : Option String
  toAddr : Option String
  date : Option String
  thread_id : Option String
  id : Option String
deriving DecidableEq

/-- A raw Notion page content block. -/
structure NotionBlock where
  text : Option String
deriving DecidableEq

/-- A raw Notion page record. -/
structure NotionRaw where
  id : Option String
  title : Option String
  last_edited_time : Option String
  url : Option String
  created_time : Option String
deriving DecidableEq

/-- A nested Salesforce reference record (e.g. `Account` or `Owner`),
carrying a `Name`. -/
structure SfRef where
  name : Option String
deriving DecidableEq

/-- A raw Salesforce account record. -/
structure SfAccount where
  id : Option String
  name : Option String
  acctType : Option String
  industry : Option String
  website : Option String
  phone : Option String
  description : Option String
  lastModified : Option String
deriving DecidableEq

/-- A raw Salesforce contact record. -/
structure SfContact where
  id : Option String
  firstName : Option String
  lastName : Option String
  email : Option String
  phone : Option String
  title : Option String
  department : Option String
  accountId : Option String
  account : Option SfRef
  lastModified : Option String
deriving DecidableEq

/-- A raw Salesforce opportunity record. -/
structure SfOpp where
  id : Option String
  name : Option String
  stageName : Option String
  amount : Option Int
  closeDate : Option String
  account : Option SfRef
  owner : Option SfRef
  accountId : Option String
  ownerId : Option String
  lastModified : Option String
deriving DecidableEq

/-- An embedded chunk stored in the vector index (a langchain
`Document`). -/
structure Doc where
  page_content : String
  metadata : List (String × MVal)
deriving DecidableEq

/-- The environment of external collaborators: the current time, the
four source clients' fetch operations (an `Except.error` models a
raised exception at the service boundary), the date parsers (`none`
models an unparsable date), the text splitter, and the similarity
backend, which receives the stored documents, the requested `k` and
the filter argument. -/
structure Env where
  now : Nat
  zoomFetch : Nat → Nat → Except Unit (List ZoomRaw)
  gmailSearch : String → Nat → Except Unit (List GmailRaw)
  gmailRecent : Nat → Nat → Except Unit (List GmailRaw)
  notionSearch : String → Nat → Except Unit (List NotionRaw)
  notionDb : Nat → Except Unit (List NotionRaw)
  notionContent : String → Except Unit (List NotionBlock)
  sfAccounts : Option String → Nat → Except Unit (List SfAccount)
  sfContacts : Option String → Nat → Except Unit (List SfContact)
  sfOpportunities : Nat → Nat → Except Unit (List SfOpp)
  parseIso : String → Option Nat
  parseRfc : String → Option Nat
  parseYmd : String → Option Nat
  splitText : String → List String
  similarity : String → List Doc → Nat → Option (List (String × Option String)) → List Doc

/-- Absorb a source-level exception into an empty item list (the
`try/except … return []` wrapper of each `_get_*_context` method). -/
def absorb (e : Except Unit (List CtxItem)) : List CtxItem :=
  match e with
  | .ok l => l
  | .error _ => []

/-! The fetch+normalize pipeline of each source
(ContextService._get_zoom_context and friends). -/

/-- Build a `MeetingContext` from a Zoom transcript record
(context_service.py lines 90-101); the base `timestamp` is the pydantic
creation-time default. -/
def mkMeetingItem (now : Nat) (t : ZoomRaw) (date : Nat) : CtxItem :=
  .meeting
    { content := t.transcript.getD ""
      metadata := [("source", .str "zoom"), ("date", optSVal t.start_time)]
      timestamp := some now }
    (t.topic.getD "Unknown Meeting") ["Unknown"] date (t.duration.getD 0)
    (t.meeting_id.getD "")

/-- The parsed meeting date: `fromisoformat` of `start_time` when
present (a parse failure raises, aborting the whole Zoom batch),
otherwise the current time. -/
def zoomDate (now : Nat) (parseIso : String → Option Nat) (t : ZoomRaw) : Option Nat :=
  match t.start_time with
  | some s => parseIso (s.replace "Z" "+00:00")
  | none => some now

/-- Normalize Zoom transcripts (context_service.py lines 84-104): a
transcript not mentioning a truthy query is skipped; an unparsable
`start_time` raises out of the loop. -/
def zoomNorm (now : Nat) (parseIso : String → Option Nat) (q : Option String) :
    List ZoomRaw → Except Unit (List CtxItem)
  | [] => .ok []
  | t :: ts =>
    if strTruthy q ∧ ¬ strIn ((q.getD "").toLower) ((t.transcript.getD "").toLower) then
      zoomNorm now parseIso q ts
    else
      match zoomDate now parseIso t with
      | none => .error ()
      | some d =>
        (zoomNorm now parseIso q ts).map (fun rest => mkMeetingItem now t d :: rest)

/-- The body of `ContextService._get_zoom_context`'s `try` block. -/
def zoomPipeline (env : Env) (q : Option String) (daysBack : Nat) (limit : Option Nat) :
    Except Unit (List CtxItem) := do
  let raws ← env.zoomFetch daysBack (pyOr limit 5)
  zoomNorm env.now env.parseIso q raws

/-- `ContextService._get_zoom_context`. -/
def getZoomContext (env : Env) (q : Option String) (daysBack : Nat) (limit : Option Nat) :
    List CtxItem :=
  absorb (zoomPipeline env q daysBack limit)

/-- Build an `EmailContext` from a Gmail record (context_service.py
lines 122-141): the content is the body, falling back to the snippet;
an unparsable date falls back to the current time. -/
def mkEmailItem (now : Nat) (parseRfc : String → Option Nat) (r : GmailRaw) : CtxItem :=
  .email
    { content := ((r.body).orElse (fun _ => r.snippet)).getD ""
      metadata := [("source", .str "gmail"), ("id", .str (r.id.getD ""))]
      timestamp := some now }
    (r.subject.getD "") (r.fromAddr.getD "") [r.toAddr.getD ""]
    ((parseRfc (r.date.getD "")).getD now) r.thread_id

/-- The body of `ContextService._get_gmail_context`'s `try` block: a
truthy query selects the search fetch, otherwise the recent fetch;
normalization is total. -/
def gmailPipeline (env : Env) (q : Option String) (daysBack : Nat) (limit : Option Nat) :
    Except Unit (List CtxItem) := do
  let emails ←
    if strTruthy q then env.gmailSearch (q.getD "") (pyOr limit 10)
    else env.gmailRecent daysBack (pyOr limit 10)
  .ok (emails.map (mkEmailItem env.now env.parseRfc))

/-- `ContextService._get_gmail_context`. -/
def getGmailContext (env : Env) (q : Option String) (daysBack : Nat) (limit : Option Nat) :
    List CtxItem :=
  absorb (gmailPipeline env q daysBack limit)

/-- Build a `DocumentContext` from a Notion page and its content blocks
(context_service.py lines 173-195). -/
def mkDocumentItem (now : Nat) (parseIso : String → Option Nat) (p : NotionRaw)
    (pid : String) (blocks : List NotionBlock) : CtxItem :=
  .document
    { content := String.intercalate "\n" (blocks.map (fun b => b.text.getD ""))
      metadata := [("source", .str "notion"), ("url", .str (p.url.getD "")),
        ("created_time", .str (p.created_time.getD ""))]
      timestamp := some now }
    (p.title.getD "Untitled") ["Unknown"]
    ((parseIso ((p.last_edited_time.getD "").replace "Z" "+00:00")).getD now) pid

/-- Normalize Notion pages (context_service.py lines 163-201): a page
with a falsy id is skipped; a failing per-page content fetch skips just
that page. -/
def notionNorm (now : Nat) (parseIso : String → Option Nat)
    (content : String → Except Unit (List NotionBlock)) : List NotionRaw → List CtxItem
  | [] => []
  | p :: ps =>
    match p.id with
    | none => notionNorm now parseIso content ps
    | some pid =>
      if pid = "" then notionNorm now parseIso content ps
      else
        match content pid with
        | .error _ => notionNorm now parseIso content ps
        | .ok blocks =>
          mkDocumentItem now parseIso p pid blocks :: notionNorm now parseIso content ps

/-- The body of `ContextService._get_notion_context`'s `try` block. -/
def notionPipeline (env : Env) (q : Option String) (limit : Option Nat) :
    Except Unit (List CtxItem) := do
  let pages ←
    if strTruthy q then env.notionSearch (q.getD "") (pyOr limit 10)
    else env.notionDb (pyOr limit 10)
  .ok (notionNorm env.now env.parseIso env.notionContent pages)

/-- `ContextService._get_notion_context`. -/
def getNotionContext (env : Env) (q : Option String) (limit : Option Nat) : List CtxItem :=
  absorb (notionPipeline env q limit)

/-- Build an `AccountContext` from a Salesforce account record
(context_service.py lines 224-236). -/
def mkAccountItem (now : Nat) (a : SfAccount) : CtxItem :=
  .account
    { content := a.description.getD "No description available"
      metadata := [("source", .str "salesforce"), ("type", optSVal a.acctType),
        ("phone", optSVal a.phone), ("last_modified", optSVal a.lastModified)]
      timestamp := some now }
    (a.name.getD "Unknown Account") a.industry a.website a.id

/-- Build a `ContactContext` from a Salesforce contact record
(context_service.py lines 241-255). -/
def mkContactItem (now : Nat) (c : SfContact) : CtxItem :=
  .contact
    { content := "Contact: " ++ c.firstName.getD "" ++ " " ++ c.lastName.getD "" ++ ", " ++
        c.title.getD "No title" ++ ", " ++ c.email.getD "No email"
      metadata := [("source", .str "salesforce"), ("department", optSVal c.department),
        ("account_id", optSVal c.accountId), ("last_modified", optSVal c.lastModified)]
      timestamp := some now }
    (c.firstName.getD "" ++ " " ++ c.lastName.getD "") c.email c.phone c.title
    (match c.account with | none => none | some r => r.name) c.id

/-- Python string interpolation of an optional string (`None` prints as
"None"). -/
def pyStr (o : Option String) : String := o.getD "None"

/-- Python string interpolation of the optional amount. -/
def pyAmt : Option Int → String
  | some a => toString a
  | none => "None"

/-- Build an `OpportunityContext` from a Salesforce opportunity record
(context_service.py lines 268-291): a zero amount is falsy and becomes
`None`; an unparsable close date becomes `None`; a missing `Account`
dict yields "Unknown Account" while a present one contributes its
(possibly missing) `Name`. -/
def mkOpportunityItem (now : Nat) (parseYmd : String → Option Nat) (o : SfOpp) : CtxItem :=
  .opportunity
    { content := "Opportunity: " ++ pyStr o.name ++ ", Stage: " ++ pyStr o.stageName ++
        ", Amount: " ++ pyAmt o.amount
      metadata := [("source", .str "salesforce"), ("account_id", optSVal o.accountId),
        ("owner_id", optSVal o.ownerId), ("last_modified", optSVal o.lastModified)]
      timestamp := some now }
    (o.name.getD "Unknown Opportunity") (o.stageName.getD "Unknown Stage")
    (match o.amount with | some a => if a = 0 then none else some a | none => none)
    (o.closeDate.bind parseYmd)
    (match o.account with | none => some "Unknown Account" | some r => r.name)
    (match o.owner with | none => some "Unknown Owner" | some r => r.name)
    o.id

/-- Normalize Salesforce opportunities (context_service.py lines
263-292): one not mentioning a truthy query in its name is skipped. -/
def oppNorm (now : Nat) (parseYmd : String → Option Nat) (q : Option String) :
    List SfOpp → List CtxItem
  | [] => []
  | o :: os =>
    if strTruthy q ∧ ¬ strIn ((q.getD "").toLower) ((o.name.getD "").toLower) then
      oppNorm now parseYmd q os
    else mkOpportunityItem now parseYmd o :: oppNorm now parseYmd q os

/-- Whether the preprocessed entity focus selects the account branch
(context_service.py line 214: the dict is truthy and has an
`account_id` key). -/
def efAccountId (ef : Option (List (String × String))) : Option String :=
  match ef with
  | none => none
  | some l => if l = [] then none else l.lookup "account_id"

/-- The body of `ContextService._get_salesforce_context`'s `try`
block: with an account focus, fetch one account (limit 1, no id
filter) plus the account's contacts; otherwise fetch recent
opportunities filtered by the query. -/
def sfPipeline (env : Env) (q : Option String) (ef : Option (List (String × String)))
    (daysBack : Nat) (limit : Option Nat) : Except Unit (List CtxItem) :=
  match efAccountId ef with
  | some accountId => do
    let accounts ← env.sfAccounts none 1
    let contacts ← env.sfContacts (some accountId) (pyOr limit 5)
    .ok (accounts.map (mkAccountItem env.now) ++ contacts.map (mkContactItem env.now))
  | none => do
    let opps ← env.sfOpportunities daysBack (pyOr limit 5)
    .ok (oppNorm env.now env.parseYmd q opps)

/-- `ContextService._get_salesforce_context`. -/
def getSalesforceContext (env : Env) (q : Option String)
    (ef : Option (List (String × String))) (daysBack : Nat) (limit : Option Nat) :
    List CtxItem :=
  absorb (sfPipeline env q ef daysBack limit)

/-! The Aggregation Engine (ContextService.get_context). -/

/-- The enabled sources: `request.sources or [all four]`
(an empty list is falsy). -/
def enabledSources (req : ContextRequest) : List String :=
  match req.sources with
  | none => ["zoom", "gmail", "notion", "salesforce"]
  | some [] => ["zoom", "gmail", "notion", "salesforce"]
  | some l => l

/-- The `days_back` value (context_service.py lines 34-37; default 7,
also when the time range dict is empty or lacks the key). -/
def daysBackOf (tr : Option TimeRange) : Nat :=
  match tr with
  | none => 7
  | some t => t.days_back.getD 7

/-- The preprocessed entity focus (context_service.py lines 40-42: a
falsy dict becomes `None`). -/
def efOf (req : ContextRequest) : Option (List (String × String)) :=
  match req.entity_focus with
  | none => none
  | some [] => none
  | some l => some l

/-- One of the four integrated sources. -/
inductive Src where
  | zoom
  | gmail
  | notion
  | salesforce
deriving DecidableEq

/-- The items contributed by one source's fetch+normalize pipeline for
a request (the per-source `_get_*_context` call of
`ContextService.get_context`). -/
def sourceItems (env : Env) (req : ContextRequest) : Src → List CtxItem
  | .zoom => getZoomContext env req.query (daysBackOf req.time_range) req.limit
  | .gmail => getGmailContext env req.query (daysBackOf req.time_range) req.limit
  | .notion => getNotionContext env req.query req.limit
  | .salesforce =>
    getSalesforceContext env req.query (efOf req) (daysBackOf req.time_range) req.limit

/-- The concatenation of all enabled sources' items in fan-out order:
zoom, gmail, notion, salesforce (context_service.py lines 44-62). -/
def concatItems (env : Env) (req : ContextRequest) : List CtxItem :=
  let sources := enabledSources req
  (if "zoom" ∈ sources then sourceItems env req .zoom else []) ++
  (if "gmail" ∈ sources then sourceItems env req .gmail else []) ++
  (if "notion" ∈ sources then sourceItems env req .notion else []) ++
  (if "salesforce" ∈ sources then sourceItems env req .salesforce else [])

/-- Stable descending insertion: place `x` before the first element
whose key is at most `x`'s (so `x`, the earlier arrival, precedes
equal-keyed later arrivals), as Python's stable
`sort(key=..., reverse=True)` does. -/
def insDesc (key : α → Nat) (x : α) : List α → List α
  | [] => [x]
  | y :: ys => if key x < key y then y :: insDesc key x ys else x :: y :: ys

/-- Stable descending sort by a key, modelling
`list.sort(key=..., reverse=True)`. -/
def sortDesc (key : α → Nat) : List α → List α
  | [] => []
  | x :: xs => insDesc key x (sortDesc key xs)

/-- Truncation to the requested limit (context_service.py lines 67-69;
a falsy limit, `None` or `0`, truncates nothing). -/
def truncateLimit (limit : Option Nat) (l : List α) : List α :=
  match limit with
  | none => l
  | some n => if n ≠ 0 ∧ n < l.length then l.take n else l

/-- `ContextService.get_context`: fan out, concatenate, sort by
timestamp descending, truncate, wrap in the response envelope. -/
def aggGetContext (env : Env) (req : ContextRequest) : ContextResponse :=
  { source := "vibecoding-mcp"
    context_items := truncateLimit req.limit (sortDesc sortKey (concatItems env req))
    query := req.query
    timestamp := env.now }

/-! The Chunking and Embedding Pipeline and the Vector Index
(src/services/vector_store.py). -/

/-- The string-valued entries of an item's pydantic `.dict()` that
`VectorStore.add_items` reads: `none` models an absent key.  No variant
has an `id` key, so `item.get("id", "")` is always the empty string. -/
def dictGetStr : CtxItem → String → Option String
  | .email _ subj send _ _ _, k =>
    if k = "subject" then some subj else if k = "sender" then some send else none
  | .meeting _ title _ _ _ _, k => if k = "title" then some title else none
  | .document _ title _ _ _, k => if k = "title" then some title else none
  | .opportunity _ name _ _ _ _ _ _, k => if k = "name" then some name else none
  | .account _ name _ _ _, k => if k = "name" then some name else none
  | .contact _ name _ _ _ _ _, k => if k = "name" then some name else none
  | .base _ _ _, _ => none

/-- The datetime-valued entries of an item's `.dict()` that
`VectorStore.add_items` reads (`date`, `last_edited`). -/
def dictGetTime : CtxItem → String → Option Nat
  | .email _ _ _ _ d _, k => if k = "date" then some d else none
  | .meeting _ _ _ d _ _, k => if k = "date" then some d else none
  | .document _ _ _ d _, k => if k = "last_edited" then some d else none
  | _, _ => none

/-- `item.get(key, "")` over the `.dict()`, as a metadata value: a
datetime value if the dict holds one, else its string, else `""`. -/
def dictMVal (it : CtxItem) (k : String) : MVal :=
  match dictGetTime it k with
  | some t => .num t
  | none => .str ((dictGetStr it k).getD "")

/-- The chunk metadata built by `VectorStore.add_items`
(vector_store.py lines 35-54): the base keys plus type-specific
denormalized fields keyed on the item's `type` value. -/
def chunkMeta (now : Nat) (it : CtxItem) : List (String × MVal) :=
  [("source", .str it.sourceOf), ("type", .str it.typeOf),
   ("id", .str ((dictGetStr it "id").getD "")), ("timestamp", .num now)] ++
  (if it.typeOf = "email" then
    [("subject", dictMVal it "subject"), ("sender", dictMVal it "sender"),
     ("date", dictMVal it "date")]
   else if it.typeOf = "meeting" then
    [("title", dictMVal it "title"), ("date", dictMVal it "date")]
   else if it.typeOf = "document" then
    [("title", dictMVal it "title"), ("last_edited", dictMVal it "last_edited")]
   else if it.typeOf = "opportunity" ∨ it.typeOf = "account" ∨ it.typeOf = "contact" then
    [("name", dictMVal it "name")]
   else [])

/-- The documents produced for one item (vector_store.py lines 28-69):
an item with empty content yields none; otherwise one document per
text chunk, carrying `chunk` and `total_chunks`. -/
def chunkDocs (splitText : String → List String) (now : Nat) (it : CtxItem) : List Doc :=
  if it.baseOf.content = "" then []
  else
    let texts := splitText it.baseOf.content
    texts.enum.map (fun p =>
      { page_content := p.2
        metadata := ("chunk", .num p.1) :: ("total_chunks", .num texts.length) ::
          chunkMeta now it })

/-- The state of a `VectorStore`: the tracking list `self.documents`
and the backend collection `self.vector_db` (`none` until the first
`add_items` call constructs it). -/
structure VStore where
  db : Option (List Doc)
  documents : List Doc
deriving DecidableEq

/-- `VectorStore.add_items`: chunk every item, extend the tracking
list, and create or incrementally extend the backend collection. -/
def addItems (env : Env) (items : List CtxItem) (st : VStore) : VStore :=
  let docs := (items.map (chunkDocs env.splitText env.now)).flatten
  { documents := st.documents ++ docs
    db := match st.db with
      | none => some docs
      | some d => some (d ++ docs) }

/-- One processed search result (vector_store.py lines 108-112): the
`score` is read from the document metadata, defaulting to 0. -/
structure SearchResult where
  content : String
  metadata : List (String × MVal)
  score : MVal
deriving DecidableEq

/-- Process one backend document into a result record. -/
def processDoc (d : Doc) : SearchResult :=
  { content := d.page_content
    metadata := d.metadata
    score := (d.metadata.lookup "score").getD (.num 0) }

/-- The filter argument handed to the similarity backend
(vector_store.py lines 90-102): keep only the allow-listed keys, and
pass no filter when the resulting dict is empty. -/
def storeFilterArg (fc : List (String × Option String)) :
    Option (List (String × Option String)) :=
  let fd := if fc = [] then [] else fc.filter (fun p => p.1 = "source" || p.1 = "type")
  if fd = [] then none else some fd

/-- `VectorStore.search`: an empty index (no backend collection or an
empty tracking list) yields no results before the backend is ever
consulted; otherwise delegate to the similarity backend with the
processed filter. -/
def storeSearch (env : Env) (st : VStore) (q : String) (fc : List (String × Option String))
    (k : Nat) : List SearchResult :=
  match st.db with
  | none => []
  | some d =>
    if st.documents = [] then []
    else (env.similarity q d k (storeFilterArg fc)).map processDoc

/-! The Retrieval Orchestrator (src/services/vector_context_service.py)
and the HTTP handler (src/main.py). -/

/-- The orchestrator's per-instance state: the one-time initialization
flag and the owned vector store. -/
structure VState where
  initialized : Bool
  store : VStore
deriving DecidableEq

/-- The wide-window bootstrap request used by
`VectorContextService.initialize` (30 days back, all four sources,
limit 100). -/
def bootstrapRequest : ContextRequest :=
  { query := none
    time_range := some { days_back := some 30, include_fresh := none }
    sources := some ["zoom", "gmail", "notion", "salesforce"]
    limit := some 100
    entity_focus := none }

/-- `VectorContextService.initialize`: a no-op when already
initialized; otherwise aggregate the bootstrap snapshot and add it to
the store. -/
def ensureInit (env : Env) (st : VState) : VState :=
  if st.initialized then st
  else
    { initialized := true
      store := addItems env (aggGetContext env bootstrapRequest).context_items st.store }

/-- The filter criteria built from the request
(vector_context_service.py lines 53-55): a falsy `sources` yields an
empty dict, a single source a source filter, and several sources a
`source: None` entry. -/
def vsFilterCriteria (req : ContextRequest) : List (String × Option String) :=
  match req.sources with
  | none => []
  | some [] => []
  | some [s] => [("source", some s)]
  | some (_ :: _ :: _) => [("source", none)]

/-- Reconstruct a generic `ContextItem` from one search hit
(vector_context_service.py lines 71-88), tagging `vector_score`; its
base `timestamp` is the pydantic creation-time default. -/
def reconstructItem (now : Nat) (r : SearchResult) : CtxItem :=
  .base
    (match r.metadata.lookup "type" with | some (.str s) => s | _ => "unknown")
    (match r.metadata.lookup "source" with | some (.str s) => s | _ => "unknown")
    { content := r.content
      metadata := ("vector_score", r.score) :: r.metadata
      timestamp := some now }

/-- The truthy `id` metadata values of the vector items
(vector_context_service.py line 95). -/
def seedIds (vitems : List CtxItem) : List MVal :=
  vitems.filterMap (fun it =>
    let v := (it.baseOf.metadata.lookup "id").getD (.str "")
    if mvalTruthy v then some v else none)

/-- The fresh-merge loop (vector_context_service.py lines 96-107): a
fresh item with a truthy natural id not yet seen is appended and its
id recorded. -/
def mergeFresh (ids : List MVal) : List CtxItem → List CtxItem
  | [] => []
  | x :: xs =>
    if natId x ≠ "" ∧ MVal.str (natId x) ∉ ids then
      x :: mergeFresh (MVal.str (natId x) :: ids) xs
    else mergeFresh ids xs

/-- Whether the fresh merge is requested
(vector_context_service.py line 91: the time range dict is truthy and
`include_fresh` is true). -/
def includeFresh (tr : Option TimeRange) : Bool :=
  match tr with
  | none => false
  | some t => t.include_fresh.getD false

/-- The vector search run by `VectorContextService.get_context`
(lines 58-62) against the lazily initialized store. -/
def vectorHits (env : Env) (req : ContextRequest) (st : VState) : List SearchResult :=
  storeSearch env (ensureInit env st).store (req.query.getD "") (vsFilterCriteria req)
    (pyOr req.limit 10)

/-- `VectorContextService.get_context`: lazily initialize; delegate to
the Aggregation Engine for a falsy query or an empty search; otherwise
reconstruct items from the hits and optionally merge fresh aggregation
results, vector hits first. -/
def vgetContext (env : Env) (req : ContextRequest) (st : VState) :
    ContextResponse × VState :=
  let st1 := ensureInit env st
  if strTruthy req.query = false then (aggGetContext env req, st1)
  else
    let vres := vectorHits env req st
    if vres = [] then (aggGetContext env req, st1)
    else
      let vitems := vres.map (reconstructItem env.now)
      let items :=
        if includeFresh req.time_range then
          vitems ++ mergeFresh (seedIds vitems) (aggGetContext env req).context_items
        else vitems
      ({ source := "vibecoding-mcp-vector", context_items := items, query := req.query,
         timestamp := env.now }, st1)

/-- `VectorContextService.add_to_index`. -/
def addToIndex (env : Env) (items : List CtxItem) (st : VState) : VState :=
  { st with store := addItems env items st.store }

/-- The `POST /context` handler body after the permission gate
(main.py lines 86-97): a present query selects the vector service;
otherwise the plain aggregation response is written through to the
index before being returned. -/
def handleContext (env : Env) (req : ContextRequest) (st : VState) :
    ContextResponse × VState :=
  if req.query.isSome then vgetContext env req st
  else
    let resp := aggGetContext env req
    (resp, addToIndex env resp.context_items st)

/-! Properties of the stable descending sort. -/

theorem mem_insDesc {α : Type} (key : α → Nat) (x : α) (l : List α) (a : α) :
    a ∈ insDesc key x l ↔ a = x ∨ a ∈ l := by
  induction l with
  | nil => simp [insDesc]
  | cons y ys ih =>
    by_cases h : key x < key y
    · simp only [insDesc, if_pos h, List.mem_cons, ih]
      tauto
    · simp only [insDesc, if_neg h, List.mem_cons]

theorem mem_sortDesc {α : Type} (key : α → Nat) (l : List α) (a : α) :
    a ∈ sortDesc key l ↔ a ∈ l := by
  induction l with
  | nil => exact Iff.rfl
  | cons x xs ih => simp [sortDesc, mem_insDesc, ih]

/-- The strict order "more recent first, ties by smaller tag first"
that a stable descending sort of a tag-ascending list establishes. -/
def tieR {α : Type} (key tag : α → Nat) (a b : α) : Prop :=
  key b < key a ∨ (key a = key b ∧ tag a < tag b)

theorem pairwise_insDesc {α : Type} (key tag : α → Nat) (x : α) (l : List α)
    (hl : l.Pairwise (tieR key tag)) (hx : ∀ y ∈ l, tag x < tag y) :
    (insDesc key x l).Pairwise (tieR key tag) := by
  induction l with
  | nil => simp [insDesc]
  | cons y ys ih =>
    rw [List.pairwise_cons] at hl
    obtain ⟨hy, hys⟩ := hl
    by_cases h : key x < key y
    · rw [insDesc, if_pos h, List.pairwise_cons]
      refine ⟨fun z hz => ?_, ih hys (fun z hz => hx z (List.mem_cons_of_mem _ hz))⟩
      rcases (mem_insDesc key x ys z).mp hz with rfl | hz
      · exact Or.inl h
      · exact hy z hz
    · rw [insDesc, if_neg h, List.pairwise_cons]
      refine ⟨fun z hz => ?_, List.pairwise_cons.mpr ⟨hy, hys⟩⟩
      rcases List.mem_cons.mp hz with rfl | hz
      · rcases Nat.lt_or_ge (key z) (key x) with h' | h'
        · exact Or.inl h'
        · exact Or.inr ⟨by omega, hx z (List.mem_cons_self _ _)⟩
      · have hzy := hy z hz
        rcases Nat.lt_or_ge (key z) (key x) with h' | h'
        · exact Or.inl h'
        · refine Or.inr ⟨?_, hx z (List.mem_cons_of_mem _ hz)⟩
          rcases hzy with h1 | h1
          · omega
          · omega

theorem pairwise_sortDesc {α : Type} (key tag : α → Nat) (l : List α)
    (h : l.Pairwise (fun a b => tag a < tag b)) :
    (sortDesc key l).Pairwise (tieR key tag) := by
  induction l with
  | nil => simp [sortDesc]
  | cons x xs ih =>
    rw [List.pairwise_cons] at h
    exact pairwise_insDesc key tag x _ (ih h.2)
      (fun y hy => h.1 y ((mem_sortDesc key xs y).mp hy))

theorem map_insDesc {α β : Type} (f : α → β) (keyA : α → Nat) (keyB : β → Nat)
    (hk : ∀ a, keyB (f a) = keyA a) (x : α) (l : List α) :
    (insDesc keyA x l).map f = insDesc keyB (f x) (l.map f) := by
  induction l with
  | nil => rfl
  | cons y ys ih =>
    have h2 : (keyB (f x) < keyB (f y)) = (keyA x < keyA y) := by rw [hk, hk]
    by_cases h : keyA x < keyA y <;> simp [insDesc, h, h2, ih]

theorem map_sortDesc {α β : Type} (f : α → β) (keyA : α → Nat) (keyB : β → Nat)
    (hk : ∀ a, keyB (f a) = keyA a) (l : List α) :
    (sortDesc keyA l).map f = sortDesc keyB (l.map f) := by
  induction l with
  | nil => rfl
  | cons x xs ih => rw [sortDesc, map_insDesc f keyA keyB hk, ih, List.map_cons, sortDesc]

theorem le_fst_of_mem_enumFrom {α : Type} (l : List α) (n : Nat) (p : Nat × α)
    (hp : p ∈ l.enumFrom n) : n ≤ p.1 := by
  induction l generalizing n with
  | nil => cases hp
  | cons x xs ih =>
    rcases List.mem_cons.mp hp with rfl | hp
    · exact Nat.le_refl n
    · exact Nat.le_of_succ_le (ih (n + 1) hp)

theorem pairwise_fst_lt_enumFrom {α : Type} (l : List α) (n : Nat) :
    (l.enumFrom n).Pairwise (fun a b => a.1 < b.1) := by
  induction l generalizing n with
  | nil => simp
  | cons x xs ih =>
    refine List.pairwise_cons.mpr ⟨fun p hp => ?_, ih (n + 1)⟩
    exact Nat.lt_of_lt_of_le (Nat.lt_succ_self n) (le_fst_of_mem_enumFrom xs (n + 1) p hp)

theorem pairwise_fst_lt_enum {α : Type} (l : List α) :
    l.enum.Pairwise (fun a b => a.1 < b.1) :=
  pairwise_fst_lt_enumFrom l 0

theorem truncateLimit_map {α β : Type} (f : α → β) (limit : Option Nat) (l : List α) :
    (truncateLimit limit l).map f = truncateLimit limit (l.map f) := by
  cases limit with
  | none => rfl
  | some n =>
    by_cases h : n ≠ 0 ∧ n < l.length
    · rw [truncateLimit, if_pos h, truncateLimit,
        if_pos (by simpa using h), List.map_take]
    · rw [truncateLimit, if_neg h, truncateLimit, if_neg (by simpa using h)]

theorem truncateLimit_sublist {α : Type} (limit : Option Nat) (l : List α) :
    (truncateLimit limit l).Sublist l := by
  cases limit with
  | none => exact List.Sublist.refl l
  | some n =>
    by_cases h : n ≠ 0 ∧ n < l.length
    · rw [truncateLimit, if_pos h]
      exact List.take_sublist n l
    · rw [truncateLimit, if_neg h]

theorem length_truncateLimit_le {α : Type} (n : Nat) (hn : 0 < n) (l : List α) :
    (truncateLimit (some n) l).length ≤ n := by
  by_cases h : n ≠ 0 ∧ n < l.length
  · rw [truncateLimit, if_pos h, List.length_take]
    omega
  · rw [truncateLimit, if_neg h]
    omega

/-! Concrete instances used by the witnesses and counterexamples. -/

/-- A quiescent environment: every source fetch succeeds with no
records, no date string parses, the splitter keeps text whole, and the
similarity backend returns the first `k` stored documents. -/
def envA : Env :=
  { now := 100
    zoomFetch := fun _ _ => .ok []
    gmailSearch := fun _ _ => .ok []
    gmailRecent := fun _ _ => .ok []
    notionSearch := fun _ _ => .ok []
    notionDb := fun _ => .ok []
    notionContent := fun _ => .ok []
    sfAccounts := fun _ _ => .ok []
    sfContacts := fun _ _ => .ok []
    sfOpportunities := fun _ _ => .ok []
    parseIso := fun _ => none
    parseRfc := fun _ => none
    parseYmd := fun _ => none
    splitText := fun s => [s]
    similarity := fun _ d k _ => d.take k }

/-- One raw email whose subject line mentions "q". -/
def emailRaw1 : GmailRaw :=
  { body := some "hello", snippet := none, subject := some "s", fromAddr := some "f",
    toAddr := some "t", date := none, thread_id := some "t1", id := some "m1" }

/-- A second raw email. -/
def emailRaw2 : GmailRaw :=
  { body := none, snippet := some "world", subject := some "s2", fromAddr := some "f2",
    toAddr := some "t2", date := some "d2", thread_id := some "t2", id := some "m2" }

/-- An environment whose Gmail source answers both fetch styles with
the two raw emails. -/
def envGmail : Env :=
  { envA with
    gmailSearch := fun _ _ => .ok [emailRaw1, emailRaw2]
    gmailRecent := fun _ _ => .ok [emailRaw1, emailRaw2] }

/-- A plain aggregation request: no query, default everything. -/
def reqPlain : ContextRequest :=
  { query := none, time_range := none, sources := none, limit := some 10,
    entity_focus := none }

/-! C1: merge ordering of the Aggregation Engine. -/

/-- Whether an `Except` result is a success. -/
def exOk (e : Except Unit (List CtxItem)) : Bool :=
  match e with
  | .ok _ => true
  | .error _ => false

/-- No enabled source's fetch+normalize pipeline raises for this
request. -/
def noEnabledFailure (env : Env) (req : ContextRequest) : Prop :=
  ("zoom" ∈ enabledSources req →
    exOk (zoomPipeline env req.query (daysBackOf req.time_range) req.limit) = true) ∧
  ("gmail" ∈ enabledSources req →
    exOk (gmailPipeline env req.query (daysBackOf req.time_range) req.limit) = true) ∧
  ("notion" ∈ enabledSources req →
    exOk (notionPipeline env req.query req.limit) = true) ∧
  ("salesforce" ∈ enabledSources req →
    exOk (sfPipeline env req.query (efOf req) (daysBackOf req.time_range) req.limit) = true)

/-- C1: for every request in which no enabled source fails, the
response's `context_items` are the fan-out concatenation (zoom, gmail,
notion, salesforce order) tagged with arrival positions, arranged so
that timestamps descend (a missing timestamp sorting as the oldest
possible value) and equal timestamps keep ascending arrival order,
then truncated to the limit. -/
theorem c1_items_sorted_desc_stable (env : Env) (req : ContextRequest)
    (_h : noEnabledFailure env req) :
    ∃ tl : List (Nat × CtxItem),
      (aggGetContext env req).context_items = tl.map Prod.snd ∧
      (∀ p ∈ tl, p ∈ (concatItems env req).enum) ∧
      tl.Pairwise (fun a b => sortKey b.2 < sortKey a.2 ∨
        (sortKey a.2 = sortKey b.2 ∧ a.1 < b.1)) := by
  refine ⟨truncateLimit req.limit
    (sortDesc (fun p => sortKey p.2) (concatItems env req).enum), ?_, ?_, ?_⟩
  · show truncateLimit req.limit (sortDesc sortKey (concatItems env req)) = _
    rw [truncateLimit_map,
      map_sortDesc Prod.snd (fun p => sortKey p.2) sortKey (fun a => rfl),
      List.enum_map_snd]
  · intro p hp
    exact (mem_sortDesc (fun p => sortKey p.2) _ p).mp
      ((truncateLimit_sublist req.limit _).subset hp)
  · exact List.Pairwise.sublist (truncateLimit_sublist req.limit _)
      (pairwise_sortDesc (fun p => sortKey p.2) Prod.fst _ (pairwise_fst_lt_enum _))

/-- C1 witness at a concrete two-email environment. -/
theorem c1_witness :
    ∃ tl : List (Nat × CtxItem),
      (aggGetContext envGmail reqPlain).context_items = tl.map Prod.snd ∧
      (∀ p ∈ tl, p ∈ (concatItems envGmail reqPlain).enum) ∧
      tl.Pairwise (fun a b => sortKey b.2 < sortKey a.2 ∨
        (sortKey a.2 = sortKey b.2 ∧ a.1 < b.1)) :=
  c1_items_sorted_desc_stable envGmail reqPlain (by unfold noEnabledFailure; decide)

/-! C3: one failing source is isolated. -/

/-- Make the given source's fetch operations raise. -/
def setFetchError (env : Env) : Src → Env
  | .zoom => { env with zoomFetch := fun _ _ => .error () }
  | .gmail =>
    { env with gmailSearch := fun _ _ => .error (), gmailRecent := fun _ _ => .error () }
  | .notion =>
    { env with notionSearch := fun _ _ => .error (), notionDb := fun _ => .error () }
  | .salesforce =>
    { env with sfAccounts := fun _ _ => .error (), sfContacts := fun _ _ => .error (),
               sfOpportunities := fun _ _ => .error () }

/-- Make the given source's fetch operations succeed with no records. -/
def setFetchEmpty (env : Env) : Src → Env
  | .zoom => { env with zoomFetch := fun _ _ => .ok [] }
  | .gmail =>
    { env with gmailSearch := fun _ _ => .ok [], gmailRecent := fun _ _ => .ok [] }
  | .notion =>
    { env with notionSearch := fun _ _ => .ok [], notionDb := fun _ => .ok [] }
  | .salesforce =>
    { env with sfAccounts := fun _ _ => .ok [], sfContacts := fun _ _ => .ok [],
               sfOpportunities := fun _ _ => .ok [] }

/-- C3: when one source's fetch raises, that source contributes zero
items, every other source's items are unchanged, and the request still
produces the successful aggregation envelope — exactly the response of
the same environment with the failing source returning no records. -/
theorem c3_source_failure_isolated (env : Env) (req : ContextRequest) (s : Src) :
    sourceItems (setFetchError env s) req s = [] ∧
    (∀ s', s' ≠ s → sourceItems (setFetchError env s) req s' = sourceItems env req s') ∧
    aggGetContext (setFetchError env s) req = aggGetContext (setFetchEmpty env s) req ∧
    (aggGetContext (setFetchError env s) req).source = "vibecoding-mcp" := by
  have hz : ∀ e : Env, sourceItems e req .zoom =
      absorb (zoomPipeline e req.query (daysBackOf req.time_range) req.limit) := fun _ => rfl
  refine ⟨?_, ?_, ?_, rfl⟩
  · cases s with
    | zoom => rfl
    | gmail =>
      show absorb (gmailPipeline _ req.query _ req.limit) = []
      by_cases h : strTruthy req.query <;>
        simp [gmailPipeline, setFetchError, h, absorb, Bind.bind, Except.bind]
    | notion =>
      show absorb (notionPipeline _ req.query req.limit) = []
      by_cases h : strTruthy req.query <;>
        simp [notionPipeline, setFetchError, h, absorb, Bind.bind, Except.bind]
    | salesforce =>
      show absorb (sfPipeline _ req.query (efOf req) _ req.limit) = []
      cases h : efAccountId (efOf req) <;>
        simp [sfPipeline, setFetchError, h, absorb, Bind.bind, Except.bind]
  · intro s' hne
    cases s <;> cases s' <;> first | exact absurd rfl hne | rfl
  · have hconcat : concatItems (setFetchError env s) req = concatItems (setFetchEmpty env s) req := by
      have he : sourceItems (setFetchError env s) req s =
          sourceItems (setFetchEmpty env s) req s := by
        cases s with
        | zoom => simp [sourceItems, getZoomContext, zoomPipeline, setFetchError,
            setFetchEmpty, absorb, Bind.bind, Except.bind, zoomNorm]
        | gmail =>
          by_cases h : strTruthy req.query <;>
            simp [sourceItems, getGmailContext, gmailPipeline, setFetchError,
              setFetchEmpty, h, absorb, Bind.bind, Except.bind]
        | notion =>
          by_cases h : strTruthy req.query <;>
            simp [sourceItems, getNotionContext, notionPipeline, setFetchError,
              setFetchEmpty, h, absorb, Bind.bind, Except.bind, notionNorm]
        | salesforce =>
          cases h : efAccountId (efOf req) <;>
            simp [sourceItems, getSalesforceContext, sfPipeline, setFetchError,
              setFetchEmpty, h, absorb, Bind.bind, Except.bind, oppNorm]
      have ho : ∀ s', s' ≠ s → sourceItems (setFetchError env s) req s' =
          sourceItems (setFetchEmpty env s) req s' := by
        intro s' hne
        cases s <;> cases s' <;> first | exact absurd rfl hne | rfl
      have hall : ∀ t, sourceItems (setFetchError env s) req t =
          sourceItems (setFetchEmpty env s) req t := by
        intro t
        rcases Decidable.em (t = s) with rfl | hne
        · exact he
        · exact ho t hne
      unfold concatItems
      simp only [hall]
    unfold aggGetContext
    rw [hconcat]
    cases s <;> rfl

/-- C3 witness at a concrete environment: a failing Gmail source
contributes nothing, Zoom is untouched, the envelope is the success
envelope. -/
theorem c3_witness :
    sourceItems (setFetchError envGmail .gmail) reqPlain .gmail = [] ∧
    sourceItems (setFetchError envGmail .gmail) reqPlain .zoom =
      sourceItems envGmail reqPlain .zoom ∧
    (aggGetContext (setFetchError envGmail .gmail) reqPlain).source = "vibecoding-mcp" :=
  ⟨(c3_source_failure_isolated envGmail reqPlain .gmail).1,
   (c3_source_failure_isolated envGmail reqPlain .gmail).2.1 .zoom (by decide),
   (c3_source_failure_isolated envGmail reqPlain .gmail).2.2.2⟩

/-! C4: empty-index fallback equivalence. -/

theorem storeSearch_nil_of_no_documents (env : Env) (st : VStore) (q : String)
    (fc : List (String × Option String)) (k : Nat) (h : st.documents = []) :
    storeSearch env st q fc k = [] := by
  unfold storeSearch
  cases st.db with
  | none => rfl
  | some d => simp [h]

/-- An initialized-or-not orchestrator state with an empty index (or,
more generally, an empty search result) makes the orchestrator return
exactly the Aggregation Engine's response for the same request. -/
theorem c4_empty_index_fallback (env : Env) (req : ContextRequest) (st : VState)
    (_hq : req.query.isSome = true)
    (h : (ensureInit env st).store.documents = [] ∨ vectorHits env req st = []) :
    (vgetContext env req st).1 = aggGetContext env req := by
  have h2 : vectorHits env req st = [] := by
    rcases h with h | h
    · unfold vectorHits
      exact storeSearch_nil_of_no_documents env _ _ _ _ h
    · exact h
  unfold vgetContext
  by_cases hq2 : strTruthy req.query = false
  · rw [if_pos hq2]
  · rw [if_neg hq2]
    dsimp only
    rw [if_pos h2]

/-- An initialized orchestrator state with an empty index. -/
def stEmpty : VState := { initialized := true, store := { db := none, documents := [] } }

/-- A request carrying only a query. -/
def reqQuery : ContextRequest :=
  { query := some "q", time_range := none, sources := none, limit := some 5,
    entity_focus := none }

/-- C4 witness at a concrete empty-index state. -/
theorem c4_witness :
    (vgetContext envGmail reqQuery stEmpty).1 = aggGetContext envGmail reqQuery :=
  c4_empty_index_fallback envGmail reqQuery stEmpty rfl (Or.inl (by decide))

/-! C5: the write-through to the index (corrected). -/

theorem vgetContext_snd (env : Env) (req : ContextRequest) (st : VState) :
    (vgetContext env req st).2 = ensureInit env st := by
  unfold vgetContext
  by_cases h : strTruthy req.query = false
  · rw [if_pos h]
  · rw [if_neg h]
    dsimp only
    by_cases h2 : vectorHits env req st = []
    · rw [if_pos h2]
    · rw [if_neg h2]

/-- C5 amended: the aggregated items are written through to the index
exactly on the query-absent path; the vector service — including its
empty-search fallback to the Aggregation Engine — never adds the
response's items, only the one-time bootstrap. -/
theorem c5_writethrough_only_when_no_query (env : Env) (req : ContextRequest) (st : VState) :
    (req.query = none →
      (handleContext env req st).1 = aggGetContext env req ∧
      (handleContext env req st).2.store =
        addItems env (aggGetContext env req).context_items st.store) ∧
    (req.query.isSome = true →
      (handleContext env req st).2 = ensureInit env st) := by
  constructor
  · intro h
    unfold handleContext
    rw [h]
    exact ⟨rfl, rfl⟩
  · intro h
    unfold handleContext
    rw [if_pos h]
    exact vgetContext_snd env req st

/-- C5 witness on the query-absent path. -/
theorem c5_witness :
    (handleContext envGmail reqPlain stEmpty).1 = aggGetContext envGmail reqPlain ∧
    (handleContext envGmail reqPlain stEmpty).2.store =
      addItems envGmail (aggGetContext envGmail reqPlain).context_items stEmpty.store :=
  (c5_writethrough_only_when_no_query envGmail reqPlain stEmpty).1 rfl

/-- C5 counterexample: a query whose vector search is empty is
answered by the Aggregation Engine fallback (the plain success
envelope, nonempty items), yet nothing is fed to the index — the
stored document list stays empty. -/
theorem c5_counterexample :
    reqQuery.query.isSome = true ∧
    (handleContext envGmail reqQuery stEmpty).1.source = "vibecoding-mcp" ∧
    (handleContext envGmail reqQuery stEmpty).1.context_items.map
      (fun it => it.baseOf.content) = ["hello", "world"] ∧
    (handleContext envGmail reqQuery stEmpty).2.store.documents = [] := by
  decide

/-! C6: the vector search filter (corrected). -/

/-- C6 amended: a falsy `sources` list passes no filter and a
singleton passes that source as a filter, but two or more sources pass
a filter whose `source` value is `None` to the backend — a non-empty
filter, not "no filter at all". -/
theorem c6_filter_by_source_count (req : ContextRequest) :
    ((req.sources = none ∨ req.sources = some []) →
      storeFilterArg (vsFilterCriteria req) = none) ∧
    (∀ s, req.sources = some [s] →
      storeFilterArg (vsFilterCriteria req) = some [("source", some s)]) ∧
    (∀ s1 s2 rest, req.sources = some (s1 :: s2 :: rest) →
      storeFilterArg (vsFilterCriteria req) = some [("source", none)]) := by
  refine ⟨?_, ?_, ?_⟩
  · rintro (h | h) <;> simp [vsFilterCriteria, storeFilterArg, h]
  · intro s h
    simp [vsFilterCriteria, storeFilterArg, h]
  · intro s1 s2 rest h
    simp [vsFilterCriteria, storeFilterArg, h]

/-- A request listing one source. -/
def reqOneSource : ContextRequest :=
  { query := some "q", time_range := none, sources := some ["zoom"], limit := none,
    entity_focus := none }

/-- C6 witness on a singleton source list. -/
theorem c6_witness :
    storeFilterArg (vsFilterCriteria reqOneSource) = some [("source", some "zoom")] :=
  (c6_filter_by_source_count reqOneSource).2.1 "zoom" rfl

/-- A request listing two sources. -/
def reqTwoSources : ContextRequest :=
  { query := some "q", time_range := none, sources := some ["zoom", "gmail"],
    limit := none, entity_focus := none }

/-- C6 counterexample: with two sources the backend receives the
filter `source: None`, not no filter. -/
theorem c6_counterexample :
    storeFilterArg (vsFilterCriteria reqTwoSources) = some [("source", none)] ∧
    storeFilterArg (vsFilterCriteria reqTwoSources) ≠ none := by
  decide

/-! C2: the response length against the limit (corrected). -/

theorem length_mergeFresh_le (ids : List MVal) (xs : List CtxItem) :
    (mergeFresh ids xs).length ≤ xs.length := by
  induction xs generalizing ids with
  | nil => exact Nat.le_refl 0
  | cons x xs ih =>
    rw [mergeFresh]
    by_cases h : natId x ≠ "" ∧ MVal.str (natId x) ∉ ids
    · rw [if_pos h]
      exact Nat.succ_le_succ (ih _)
    · rw [if_neg h]
      exact Nat.le_succ_of_le (ih _)

theorem length_storeSearch_le (env : Env) (st : VStore) (q : String)
    (fc : List (String × Option String)) (k : Nat)
    (hb : ∀ q d k f, (env.similarity q d k f).length ≤ k) :
    (storeSearch env st q fc k).length ≤ k := by
  unfold storeSearch
  cases st.db with
  | none => exact Nat.zero_le k
  | some d =>
    show (if st.documents = [] then []
      else List.map processDoc (env.similarity q d k (storeFilterArg fc))).length ≤ k
    by_cases h : st.documents = []
    · rw [if_pos h]
      exact Nat.zero_le k
    · rw [if_neg h, List.length_map]
      exact hb q d k _

/-- C2 amended: with a positive limit `n` (and a backend honouring
`k`), the aggregation path and the vector path without the fresh merge
return at most `n` items; when the fresh merge runs, the response is
only bounded by `n` plus the fresh aggregation's item count, and can
exceed `n`. -/
theorem c2_length_bounds (env : Env) (st : VState) (req : ContextRequest) (n : Nat)
    (hl : req.limit = some n) (hn : 0 < n)
    (hb : ∀ q d k f, (env.similarity q d k f).length ≤ k) :
    (aggGetContext env req).context_items.length ≤ n ∧
    (includeFresh req.time_range = false →
      (vgetContext env req st).1.context_items.length ≤ n) ∧
    (vgetContext env req st).1.context_items.length ≤
      n + (aggGetContext env req).context_items.length := by
  have hagg : (aggGetContext env req).context_items.length ≤ n := by
    show (truncateLimit req.limit _).length ≤ n
    rw [hl]
    exact length_truncateLimit_le n hn _
  have hk : pyOr req.limit 10 = n := by
    simp only [hl, pyOr]
    rw [if_neg (by omega)]
  have hvlen : (vectorHits env req st).length ≤ n := by
    unfold vectorHits
    rw [hk]
    exact length_storeSearch_le env _ _ _ n hb
  refine ⟨hagg, ?_, ?_⟩
  · intro hf
    unfold vgetContext
    by_cases h : strTruthy req.query = false
    · rw [if_pos h]
      exact hagg
    · rw [if_neg h]
      dsimp only
      by_cases h2 : vectorHits env req st = []
      · rw [if_pos h2]
        exact hagg
      · rw [if_neg h2]
        simp only [hf, Bool.false_eq_true, if_false, List.length_map]
        exact hvlen
  · unfold vgetContext
    by_cases h : strTruthy req.query = false
    · rw [if_pos h]
      exact Nat.le_add_left _ _
    · rw [if_neg h]
      dsimp only
      by_cases h2 : vectorHits env req st = []
      · rw [if_pos h2]
        exact Nat.le_add_left _ _
      · rw [if_neg h2]
        cases hf3 : includeFresh req.time_range with
        | false =>
          simp only [hf3, Bool.false_eq_true, if_false, List.length_map]
          exact Nat.le_trans hvlen (Nat.le_add_right _ _)
        | true =>
          simp only [hf3, if_true, List.length_append, List.length_map]
          have hm := length_mergeFresh_le
            (seedIds ((vectorHits env req st).map (reconstructItem env.now)))
            (aggGetContext env req).context_items
          omega

/-- A chunk already sitting in the index. -/
def doc0 : Doc :=
  { page_content := "hi"
    metadata := [("source", .str "gmail"), ("type", .str "email"), ("id", .str "")] }

/-- An initialized orchestrator state holding one indexed chunk. -/
def stOneDoc : VState :=
  { initialized := true, store := { db := some [doc0], documents := [doc0] } }

/-- C2 witness: the bounds instantiated at a concrete request with
limit 5 and no fresh merge. -/
theorem c2_witness :
    (aggGetContext envGmail reqQuery).context_items.length ≤ 5 ∧
    (includeFresh reqQuery.time_range = false →
      (vgetContext envGmail reqQuery stOneDoc).1.context_items.length ≤ 5) ∧
    (vgetContext envGmail reqQuery stOneDoc).1.context_items.length ≤
      5 + (aggGetContext envGmail reqQuery).context_items.length :=
  c2_length_bounds envGmail stOneDoc reqQuery 5 rfl (by omega)
    (fun q d k f => by
      show (d.take k).length ≤ k
      exact List.length_take_le _ _)

/-- A query request with limit 1 and `include_fresh` set. -/
def reqFresh : ContextRequest :=
  { query := some "q", time_range := some { days_back := none, include_fresh := some true },
    sources := none, limit := some 1, entity_focus := none }

/-- C2 counterexample: on the vector path with `include_fresh`, one
vector hit plus one merged fresh item yields two items against a limit
of one. -/
theorem c2_counterexample :
    reqFresh.limit = some 1 ∧
    (vgetContext envGmail reqFresh stOneDoc).1.context_items.length = 2 := by
  decide

/-! C7: the fresh-merge characterization. -/

/-- The claim's reading of the fresh merge: scan the fresh list in
order and keep exactly those items whose natural id is non-empty and
not already present — neither in the id set of the vector items nor on
any earlier fresh item (first-seen wins). -/
def firstSeenKeep (seed : List MVal) (prev : List CtxItem) : List CtxItem → List CtxItem
  | [] => []
  | x :: xs =>
    (if natId x ≠ "" ∧ MVal.str (natId x) ∉ seed ∧ (∀ y ∈ prev, natId y ≠ natId x)
     then [x] else []) ++ firstSeenKeep seed (prev ++ [x]) xs

/-- The claim's merge over a whole fresh list. -/
def firstSeenFilter (seed : List MVal) (xs : List CtxItem) : List CtxItem :=
  firstSeenKeep seed [] xs

/-- The code's id-accumulator loop agrees with the first-seen filter,
under the invariant tying the accumulated id set to the initial seed
plus the ids of the already scanned items. -/
theorem mergeFresh_eq_firstSeenKeep (seed0 : List MVal) (xs : List CtxItem) :
    ∀ (ids : List MVal) (prev : List CtxItem),
      (∀ v : String, v ≠ "" → (MVal.str v ∈ ids ↔ MVal.str v ∈ seed0 ∨
        ∃ y ∈ prev, natId y = v)) →
      mergeFresh ids xs = firstSeenKeep seed0 prev xs := by
  induction xs with
  | nil =>
    intro ids prev _
    rfl
  | cons x xs ih =>
    intro ids prev H
    by_cases h0 : natId x = ""
    · rw [mergeFresh, if_neg (by simp [h0]), firstSeenKeep, if_neg (by simp [h0]),
        List.nil_append]
      apply ih
      intro v hv
      rw [H v hv]
      constructor
      · rintro (h | ⟨y, hy, hyv⟩)
        · exact Or.inl h
        · exact Or.inr ⟨y, List.mem_append_left _ hy, hyv⟩
      · rintro (h | ⟨y, hy, hyv⟩)
        · exact Or.inl h
        · rcases List.mem_append.mp hy with hy | hy
          · exact Or.inr ⟨y, hy, hyv⟩
          · rw [List.mem_singleton] at hy
            subst hy
            exact absurd (hyv.symm.trans h0) hv
    · by_cases h1 : MVal.str (natId x) ∈ ids
      · have hd : MVal.str (natId x) ∈ seed0 ∨ ∃ y ∈ prev, natId y = natId x :=
          (H (natId x) h0).mp h1
        rw [mergeFresh, if_neg (by tauto), firstSeenKeep, if_neg ?hc, List.nil_append]
        case hc =>
          rintro ⟨-, hns, hnp⟩
          rcases hd with hd | ⟨y, hy, hyv⟩
          · exact hns hd
          · exact hnp y hy hyv
        apply ih
        intro v hv
        rw [H v hv]
        constructor
        · rintro (h | ⟨y, hy, hyv⟩)
          · exact Or.inl h
          · exact Or.inr ⟨y, List.mem_append_left _ hy, hyv⟩
        · rintro (h | ⟨y, hy, hyv⟩)
          · exact Or.inl h
          · rcases List.mem_append.mp hy with hy | hy
            · exact Or.inr ⟨y, hy, hyv⟩
            · rw [List.mem_singleton] at hy
              subst hy
              rw [hyv] at hd
              exact hd
      · have hd : ¬ (MVal.str (natId x) ∈ seed0 ∨ ∃ y ∈ prev, natId y = natId x) :=
          fun hc => h1 ((H (natId x) h0).mpr hc)
        push_neg at hd
        rw [mergeFresh, if_pos ⟨h0, h1⟩, firstSeenKeep,
          if_pos ⟨h0, hd.1, fun y hy => hd.2 y hy⟩]
        show x :: _ = [x] ++ _
        rw [List.singleton_append]
        congr 1
        apply ih
        intro v hv
        constructor
        · intro hmem
          rcases List.mem_cons.mp hmem with heq | hmem
          · have : v = natId x := by
              cases heq
              rfl
            exact Or.inr ⟨x, List.mem_append_right _ (List.mem_singleton_self x), this.symm⟩
          · rcases (H v hv).mp hmem with h | ⟨y, hy, hyv⟩
            · exact Or.inl h
            · exact Or.inr ⟨y, List.mem_append_left _ hy, hyv⟩
        · rintro (h | ⟨y, hy, hyv⟩)
          · exact List.mem_cons_of_mem _ ((H v hv).mpr (Or.inl h))
          · rcases List.mem_append.mp hy with hy | hy
            · exact List.mem_cons_of_mem _ ((H v hv).mpr (Or.inr ⟨y, hy, hyv⟩))
            · rw [List.mem_singleton] at hy
              subst hy
              rw [hyv]
              exact List.mem_cons_self _ _

/-- C7: with a truthy query, `include_fresh` requested and a non-empty
vector search, the response is the reconstructed vector items followed
by exactly those fresh Aggregation Engine items keeping the first-seen
occurrence of each non-empty natural id not already present. -/
theorem c7_fresh_merge_firstseen (env : Env) (req : ContextRequest) (st : VState)
    (hq : strTruthy req.query = true)
    (hf : includeFresh req.time_range = true)
    (hv : vectorHits env req st ≠ []) :
    (vgetContext env req st).1.context_items =
      (vectorHits env req st).map (reconstructItem env.now) ++
      firstSeenFilter (seedIds ((vectorHits env req st).map (reconstructItem env.now)))
        (aggGetContext env req).context_items := by
  unfold vgetContext
  rw [if_neg (by simp [hq])]
  dsimp only
  rw [if_neg hv]
  simp only [hf, if_true]
  congr 1
  apply mergeFresh_eq_firstSeenKeep
  intro v hv'
  simp [firstSeenFilter]

/-- C7 witness at a concrete environment: one vector hit, one fresh
email merged behind it. -/
theorem c7_witness :
    (vgetContext envGmail reqFresh stOneDoc).1.context_items =
      (vectorHits envGmail reqFresh stOneDoc).map (reconstructItem envGmail.now) ++
      firstSeenFilter
        (seedIds ((vectorHits envGmail reqFresh stOneDoc).map (reconstructItem envGmail.now)))
        (aggGetContext envGmail reqFresh).context_items :=
  c7_fresh_merge_firstseen envGmail reqFresh stOneDoc (by decide) (by decide) (by decide)

/-! C10: every pipeline-produced item carries a creation-time
timestamp, so the missing-timestamp sort branch is unreachable for
them. -/

theorem bindOk {α β : Type} (a : α) (f : α → Except Unit β) :
    (Except.ok a : Except Unit α) >>= f = f a := rfl

theorem bindError {α β : Type} (e : Unit) (f : α → Except Unit β) :
    (Except.error e : Except Unit α) >>= f = Except.error e := rfl

theorem ts_zoomNorm (now : Nat) (parseIso : String → Option Nat) (q : Option String)
    (rs : List ZoomRaw) (l : List CtxItem) (h : zoomNorm now parseIso q rs = .ok l) :
    ∀ it ∈ l, it.baseOf.timestamp = some now := by
  induction rs generalizing l with
  | nil =>
    rw [zoomNorm] at h
    cases h
    intro it hit
    cases hit
  | cons t ts ih =>
    rw [zoomNorm] at h
    by_cases hc : strTruthy q ∧ ¬ strIn ((q.getD "").toLower) ((t.transcript.getD "").toLower)
    · rw [if_pos hc] at h
      exact ih l h
    · rw [if_neg hc] at h
      cases hd : zoomDate now parseIso t with
      | none =>
        rw [hd] at h
        cases h
      | some d =>
        rw [hd] at h
        cases hr : zoomNorm now parseIso q ts with
        | error e =>
          rw [hr] at h
          cases h
        | ok rest =>
          rw [hr] at h
          cases h
          intro it hit
          rcases List.mem_cons.mp hit with rfl | hit
          · rfl
          · exact ih rest hr it hit

theorem ts_notionNorm (now : Nat) (parseIso : String → Option Nat)
    (content : String → Except Unit (List NotionBlock)) (ps : List NotionRaw) :
    ∀ it ∈ notionNorm now parseIso content ps, it.baseOf.timestamp = some now := by
  induction ps with
  | nil =>
    intro it hit
    cases hit
  | cons p ps ih =>
    intro it hit
    rw [notionNorm] at hit
    rcases hp : p.id with - | pid
    · rw [hp] at hit
      exact ih it hit
    · rw [hp] at hit
      dsimp only at hit
      by_cases he : pid = ""
      · rw [if_pos he] at hit
        exact ih it hit
      · rw [if_neg he] at hit
        cases hc : content pid with
        | error e =>
          rw [hc] at hit
          exact ih it hit
        | ok blocks =>
          rw [hc] at hit
          rcases List.mem_cons.mp hit with rfl | hit
          · rfl
          · exact ih it hit

theorem ts_oppNorm (now : Nat) (parseYmd : String → Option Nat) (q : Option String)
    (os : List SfOpp) :
    ∀ it ∈ oppNorm now parseYmd q os, it.baseOf.timestamp = some now := by
  induction os with
  | nil =>
    intro it hit
    cases hit
  | cons o os ih =>
    intro it hit
    rw [oppNorm] at hit
    by_cases hc : strTruthy q ∧ ¬ strIn ((q.getD "").toLower) ((o.name.getD "").toLower)
    · rw [if_pos hc] at hit
      exact ih it hit
    · rw [if_neg hc] at hit
      rcases List.mem_cons.mp hit with rfl | hit
      · rfl
      · exact ih it hit

theorem ts_sourceItems (env : Env) (req : ContextRequest) (s : Src) :
    ∀ it ∈ sourceItems env req s, it.baseOf.timestamp = some env.now := by
  cases s with
  | zoom =>
    intro it hit
    unfold sourceItems getZoomContext zoomPipeline at hit
    dsimp only at hit
    cases hf : env.zoomFetch (daysBackOf req.time_range) (pyOr req.limit 5) with
    | error e =>
      simp only [hf, bindError, absorb] at hit
      cases hit
    | ok raws =>
      simp only [hf, bindOk] at hit
      cases hn : zoomNorm env.now env.parseIso req.query raws with
      | error e =>
        simp only [hn, absorb] at hit
        cases hit
      | ok l =>
        simp only [hn, absorb] at hit
        exact ts_zoomNorm env.now env.parseIso req.query raws l hn it hit
  | gmail =>
    intro it hit
    unfold sourceItems getGmailContext gmailPipeline at hit
    dsimp only at hit
    by_cases hq : strTruthy req.query = true
    · rw [if_pos hq] at hit
      cases hf : env.gmailSearch (req.query.getD "") (pyOr req.limit 10) with
      | error e =>
        simp only [hf, bindError, absorb] at hit
        cases hit
      | ok emails =>
        simp only [hf, bindOk, absorb] at hit
        rcases List.mem_map.mp hit with ⟨r, -, rfl⟩
        rfl
    · rw [if_neg hq] at hit
      cases hf : env.gmailRecent (daysBackOf req.time_range) (pyOr req.limit 10) with
      | error e =>
        simp only [hf, bindError, absorb] at hit
        cases hit
      | ok emails =>
        simp only [hf, bindOk, absorb] at hit
        rcases List.mem_map.mp hit with ⟨r, -, rfl⟩
        rfl
  | notion =>
    intro it hit
    unfold sourceItems getNotionContext notionPipeline at hit
    dsimp only at hit
    by_cases hq : strTruthy req.query = true
    · rw [if_pos hq] at hit
      cases hf : env.notionSearch (req.query.getD "") (pyOr req.limit 10) with
      | error e =>
        simp only [hf, bindError, absorb] at hit
        cases hit
      | ok pages =>
        simp only [hf, bindOk, absorb] at hit
        exact ts_notionNorm env.now env.parseIso env.notionContent pages it hit
    · rw [if_neg hq] at hit
      cases hf : env.notionDb (pyOr req.limit 10) with
      | error e =>
        simp only [hf, bindError, absorb] at hit
        cases hit
      | ok pages =>
        simp only [hf, bindOk, absorb] at hit
        exact ts_notionNorm env.now env.parseIso env.notionContent pages it hit
  | salesforce =>
    intro it hit
    unfold sourceItems getSalesforceContext sfPipeline at hit
    dsimp only at hit
    rcases he : efAccountId (efOf req) with - | accountId
    · simp only [he] at hit
      cases hf : env.sfOpportunities (daysBackOf req.time_range) (pyOr req.limit 5) with
      | error e =>
        simp only [hf, bindError, absorb] at hit
        cases hit
      | ok opps =>
        simp only [hf, bindOk, absorb] at hit
        exact ts_oppNorm env.now env.parseYmd req.query opps it hit
    · simp only [he] at hit
      cases hf : env.sfAccounts none 1 with
      | error e =>
        simp only [hf, bindError, absorb] at hit
        cases hit
      | ok accounts =>
        simp only [hf, bindOk] at hit
        cases hg : env.sfContacts (some accountId) (pyOr req.limit 5) with
        | error e =>
          simp only [hg, bindError, absorb] at hit
          cases hit
        | ok contacts =>
          simp only [hg, bindOk, absorb] at hit
          rcases List.mem_append.mp hit with hit | hit
          · rcases List.mem_map.mp hit with ⟨a, -, rfl⟩
            rfl
          · rcases List.mem_map.mp hit with ⟨c, -, rfl⟩
            rfl

/-- C10: every item coming out of the fan-out's fetch+normalize
pipelines carries a timestamp (the creation-time default), and its
sort key is that timestamp — the missing-timestamp branch that sorts
as the oldest value is unreachable for pipeline-produced items. -/
theorem c10_pipeline_timestamps (env : Env) (req : ContextRequest) (it : CtxItem)
    (h : it ∈ concatItems env req) :
    ∃ t, it.baseOf.timestamp = some t ∧ sortKey it = t := by
  have hts : it.baseOf.timestamp = some env.now := by
    unfold concatItems at h
    rcases List.mem_append.mp h with h | h
    · rcases List.mem_append.mp h with h | h
      · rcases List.mem_append.mp h with h | h
        · split at h
          · exact ts_sourceItems env req .zoom it h
          · cases h
        · split at h
          · exact ts_sourceItems env req .gmail it h
          · cases h
      · split at h
        · exact ts_sourceItems env req .notion it h
        · cases h
    · split at h
      · exact ts_sourceItems env req .salesforce it h
      · cases h
  exact ⟨env.now, hts, by rw [sortKey, hts]; rfl⟩

/-- C10 witness: a concrete pipeline item. -/
theorem c10_witness :
    ∃ t, (mkEmailItem envGmail.now envGmail.parseRfc emailRaw1).baseOf.timestamp = some t ∧
      sortKey (mkEmailItem envGmail.now envGmail.parseRfc emailRaw1) = t :=
  c10_pipeline_timestamps envGmail reqPlain
    (mkEmailItem envGmail.now envGmail.parseRfc emailRaw1) (by decide)

/-! C8: the Salesforce account-focus branch fetches the wrong
account (code bug evidence). -/

/-- The most recently modified account in the CRM — not the one the
request focuses on. -/
def acct8 : SfAccount :=
  { id := some "005YY", name := some "Recent Corp", acctType := none, industry := none,
    website := none, phone := none, description := none, lastModified := none }

/-- A contact of the focused account. -/
def con8 : SfContact :=
  { id := some "003AA", firstName := some "Ann", lastName := some "Lee", email := none,
    phone := none, title := none, department := none, accountId := some "001XX",
    account := none, lastModified := none }

/-- A CRM environment whose account fetch returns `acct8` and whose
contact fetch returns `con8`. -/
def envSf : Env :=
  { envA with sfAccounts := fun _ _ => .ok [acct8], sfContacts := fun _ _ => .ok [con8] }

/-- The Salesforce items for an `entity_focus` on account "001XX" with
no query. -/
def itemsC8 : List CtxItem :=
  getSalesforceContext envSf none (some [("account_id", "001XX")]) 7 (some 5)

/-- The `account_id` fields of the AccountContext items of a list. -/
def acctIds (l : List CtxItem) : List (Option String) :=
  l.filterMap (fun it =>
    match it with
    | .account _ _ _ _ aid => some aid
    | _ => none)

/-- C8 evidence: the branch returns one AccountContext and the
contacts and no opportunities, but the account is the one the
limit-1 unfiltered fetch returned ("005YY"), not the requested
"001XX". -/
theorem c8_wrong_account_fetched :
    itemsC8.map CtxItem.typeOf = ["account", "contact"] ∧
    acctIds itemsC8 = [some "005YY"] ∧
    (some "005YY" : Option String) ≠ some "001XX" := by
  decide

/-! C9: add_items is a plain append, not idempotent (corrected). -/

/-- C9 amended: calling `add_items` twice with the same item list
appends the very same chunk list twice — the stored documents contain
each chunk of the list in duplicate, so a search over the doubled
index can return the same chunk twice (no deduplication happens in the
index). -/
theorem c9_add_items_appends_twice (env : Env) (items : List CtxItem) (st : VStore) :
    (addItems env items (addItems env items st)).documents =
      st.documents ++ ((items.map (chunkDocs env.splitText env.now)).flatten ++
        (items.map (chunkDocs env.splitText env.now)).flatten) := by
  simp [addItems, List.append_assoc]

/-- An item with non-empty content to be indexed. -/
def meetItem : CtxItem :=
  .meeting { content := "chat", metadata := [], timestamp := some 100 }
    "T" ["Unknown"] 5 0 "mid1"

/-- The store after one `add_items` call. -/
def st9a : VStore := addItems envA [meetItem] { db := none, documents := [] }

/-- The store after the second, identical `add_items` call. -/
def st9b : VStore := addItems envA [meetItem] st9a

/-- C9 counterexample: after the double add the same chunk is returned
twice by the search (limit 5), where the single add returns it once. -/
theorem c9_counterexample :
    (storeSearch envA st9a "q" [] 5).length = 1 ∧
    (storeSearch envA st9b "q" [] 5).length = 2 ∧
    (storeSearch envA st9b "q" [] 5)[0]? = (storeSearch envA st9b "q" [] 5)[1]? := by
  decide

end VC
